import Mathlib

/-!
Shallow embedding of the UPS-monitoring service `unlimited_power`.

Strings are modelled as `List Char` (a Rust `&str` is a UTF-8 byte
sequence; the byte-level operations that the code performs on it are
modelled explicitly where byte offsets matter, see `byteSliceInterior`).
Machine integers (`u8`, `u16`, `u32`, `usize`) are modelled as `Nat`
with explicit range checks where the Rust code performs them.

Rust code that can panic is embedded inside an outer `Option`: a result
of `none` means the Rust code panicked, `some r` means it returned `r`.

The `f32` parser (`f32::from_str`) is Rust standard-library code, not
code of this repository; it is taken as an abstract capability, a
`FloatModel`: a carrier type, a distinguished `nan` element
(`f32::NAN`) and a parse function returning `Option`.  Everything the
repository does with the parsed floats is independent of their
representation.
-/

namespace UnlimitedPower

set_option maxRecDepth 10000

/-- Abstract model of the `f32` type together with `f32::NAN` and
`f32::from_str` (Rust standard library, external to the repository). -/
structure FloatModel (α : Type) where
  nan : α
  parse : List Char → Option α

/-- Model of Rust `char::is_whitespace`: the Unicode `White_Space`
property, which is what `str::split_whitespace` splits on. -/
def rustIsWhitespace (c : Char) : Bool :=
  let n := c.toNat
  (0x09 ≤ n && n ≤ 0x0D) || n == 0x20 || n == 0x85 || n == 0xA0 ||
    n == 0x1680 || (0x2000 ≤ n && n ≤ 0x200A) || n == 0x2028 ||
    n == 0x2029 || n == 0x202F || n == 0x205F || n == 0x3000

/-- Accumulator pass of `str::split_whitespace`: `acc` holds the
(reversed) characters of the field currently being read. -/
def splitWhitespaceAux : List Char → List Char → List (List Char)
  | [], acc => if acc.isEmpty then [] else [acc.reverse]
  | c :: cs, acc =>
    if rustIsWhitespace c then
      if acc.isEmpty then splitWhitespaceAux cs []
      else acc.reverse :: splitWhitespaceAux cs []
    else splitWhitespaceAux cs (c :: acc)

/-- Model of Rust `str::split_whitespace` (collected into a `Vec`):
split on runs of whitespace, yielding only non-empty fields. -/
def splitWhitespace (cs : List Char) : List (List Char) :=
  splitWhitespaceAux cs []

/-- Digit-accumulation loop of `u8::from_str_radix(s, 2)`: each
character must be a binary digit, and the checked arithmetic fails
(returns `None`, Rust `PosOverflow`) as soon as the value exceeds
`u8::MAX = 255`. -/
def parseBinDigitsU8 (acc : Nat) : List Char → Option Nat
  | [] => some acc
  | c :: cs =>
    if c = '0' then
      (if acc * 2 + 0 > 255 then none else parseBinDigitsU8 (acc * 2 + 0) cs)
    else if c = '1' then
      (if acc * 2 + 1 > 255 then none else parseBinDigitsU8 (acc * 2 + 1) cs)
    else none

/-- Model of `u8::from_str_radix(s, 2)` (used for the `flags_binary`
field).  An empty string, a bare sign, a non-binary digit (including a
minus sign, which is not stripped for unsigned types) or an overflow
past 255 all yield `none`. -/
def u8FromStrRadix2 (s : List Char) : Option Nat :=
  match s with
  | [] => none
  | c :: rest =>
    if c = '+' then
      (if rest.isEmpty then none else parseBinDigitsU8 0 rest)
    else parseBinDigitsU8 0 (c :: rest)

/-- Digit-accumulation loop of `u32::from_str` (decimal), with the
checked arithmetic failing past `u32::MAX`. -/
def parseDecDigitsU32 (acc : Nat) : List Char → Option Nat
  | [] => some acc
  | c :: cs =>
    if c.isDigit then
      let d := c.toNat - '0'.toNat
      if acc * 10 + d > 4294967295 then none
      else parseDecDigitsU32 (acc * 10 + d) cs
    else none

/-- Model of `"…".parse::<u32>()` (used for the `output_load_level`
field). -/
def u32FromStrDec (s : List Char) : Option Nat :=
  match s with
  | [] => none
  | c :: rest =>
    if c = '+' then
      (if rest.isEmpty then none else parseDecDigitsU32 0 rest)
    else parseDecDigitsU32 0 (c :: rest)

namespace UpsStatusFlags

/-- Flag constants of `bitflags! UpsStatusFlags` (src/ups/src/ups.rs). -/
def BEEPER_ACTIVE : Nat := 0x01

def UPS_SHUTDOWN_ACTIVE : Nat := 0x02

def SELF_TEST_IN_PROGRESS : Nat := 0x04

def UPS_LINE_INTERACTIVE : Nat := 0x08

def UPS_FAULT : Nat := 0x10

def BOOST_OR_BUCK_MODE : Nat := 0x20

def BATTERY_LOW : Nat := 0x40

def UTILITY_FAIL : Nat := 0x80

/-- Union of all named flag bits (`UpsStatusFlags::all()`). -/
def allBits : Nat :=
  BEEPER_ACTIVE ||| UPS_SHUTDOWN_ACTIVE ||| SELF_TEST_IN_PROGRESS |||
    UPS_LINE_INTERACTIVE ||| UPS_FAULT ||| BOOST_OR_BUCK_MODE |||
    BATTERY_LOW ||| UTILITY_FAIL

/-- Model of `UpsStatusFlags::from_bits(b)`: fails when `b` has a bit
outside the named ones; the complement is taken within `u8`. -/
def from_bits (b : Nat) : Option Nat :=
  if b &&& (255 ^^^ allBits) ≠ 0 then none else some b

/-- Model of `bitflags` `contains`: `(self.bits & other.bits) == other.bits`. -/
def fcontains (b f : Nat) : Bool := b &&& f == f

end UpsStatusFlags

/-- Derived work mode of the UPS (`enum UpsWorkMode`). -/
inductive UpsWorkMode where
  | Line
  | Battery
  | BatteryTest
  | Fault
deriving DecidableEq, Repr

/-- Parsed status snapshot (`struct UpsStatus`), generic over the `f32`
model; `flags` is the `u8` bit set. -/
structure UpsStatus (α : Type) where
  input_voltage : α
  input_fault_voltage : α
  output_voltage : α
  output_load_level : Nat
  output_frequency : α
  battery_voltage : α
  internal_temperature : α
  flags : Nat
deriving DecidableEq, Repr

/-- Model of `UpsStatus::work_mode` (src/ups/src/ups.rs lines 29-39). -/
def UpsStatus.work_mode (st : UpsStatus α) : UpsWorkMode :=
  if UpsStatusFlags.fcontains st.flags UpsStatusFlags.UPS_FAULT then .Fault
  else if UpsStatusFlags.fcontains st.flags UpsStatusFlags.UTILITY_FAIL then .Battery
  else if UpsStatusFlags.fcontains st.flags UpsStatusFlags.SELF_TEST_IN_PROGRESS then .BatteryTest
  else .Line

/-- Byte-level model of `&string[1..string.len() - 1]`.  The slice
succeeds exactly when byte offsets `1` and `len - 1` are character
boundaries; for a string of at least two characters this holds iff the
first and the last character are single-byte, and for an empty or
single-character string the slice always panics (`none`). -/
def byteSliceInterior : List Char → Option (List Char)
  | [] => none
  | c :: rest =>
    match rest.getLast? with
    | none => none
    | some lastc =>
      if c.utf8Size = 1 && lastc.utf8Size = 1 then some rest.dropLast else none

/-- Record construction of the `UpsStatus` value in `from_str`
(src/ups/src/ups.rs lines 76-85), given the eight fields and the flags
byte delivered by `UpsStatusFlags::from_bits`. -/
def buildStatus (F : FloatModel α) (parts : List (List Char)) (fl : Nat) :
    UpsStatus α where
  input_voltage := (F.parse (parts.getD 0 [])).getD F.nan
  input_fault_voltage := (F.parse (parts.getD 1 [])).getD F.nan
  output_voltage := (F.parse (parts.getD 2 [])).getD F.nan
  output_load_level := (u32FromStrDec (parts.getD 3 [])).getD 0
  output_frequency := (F.parse (parts.getD 4 [])).getD F.nan
  battery_voltage := (F.parse (parts.getD 5 [])).getD F.nan
  internal_temperature := (F.parse (parts.getD 6 [])).getD F.nan
  flags := fl

/-- Model of `impl FromStr for UpsStatus` (src/ups/src/ups.rs lines
42-89).  The outer `Option` is the panic layer: `none` would mean the
byte slice `&string[1..len - 1]` was not on character boundaries, or
the `.unwrap()` on `from_bits` failed. -/
def UpsStatus.from_str (F : FloatModel α) (s : List Char) :
    Option (Except String (UpsStatus α)) :=
  match s.head? with
  | none => some (Except.error "Status string too short")
  | some first_char =>
    if first_char ≠ '(' then some (Except.error "Unexpected status string header")
    else
      match s.getLast? with
      | none => some (Except.error "Status string too short")
      | some last_char =>
        if last_char ≠ '\r' then
          some (Except.error "Unexpected status string terminator")
        else
          match byteSliceInterior s with
          | none => none
          | some inner =>
            let parts := splitWhitespace inner
            if parts.length ≠ 8 then
              some (Except.error "Unexpected number of status string parts")
            else
              match UpsStatusFlags.from_bits
                  ((u8FromStrRadix2 (parts.getD 7 [])).getD 0) with
              | none => none
              | some fl => some (Except.ok (buildStatus F parts fl))

/-! Status poller (`ups_query_task`, src/src/main.rs lines 257-281).

The poller runs an unbounded outer loop; each iteration opens the HID
device, then polls `status()` in an inner loop, publishing each
snapshot, until a status query fails.  The environment (device-open
results and the successful statuses of each iteration) is supplied as
a finite script, and the poller is embedded as the function from the
script to the trace of externally visible actions together with the
outcome (whether `ups_query_task` returned — that is, propagated an
error with `?` — or was still looping when the script ran out). -/

/-- Decidable equality for `Except`, needed to evaluate concrete
script equalities. -/
instance {ε α : Type} [DecidableEq ε] [DecidableEq α] :
    DecidableEq (Except ε α) := fun x y =>
  match x, y with
  | Except.ok a, Except.ok b =>
    if h : a = b then Decidable.isTrue (by rw [h])
    else Decidable.isFalse (by intro hh; cases hh; exact h rfl)
  | Except.error a, Except.error b =>
    if h : a = b then Decidable.isTrue (by rw [h])
    else Decidable.isFalse (by intro hh; cases hh; exact h rfl)
  | Except.ok _, Except.error _ => Decidable.isFalse (by intro hh; cases hh)
  | Except.error _, Except.ok _ => Decidable.isFalse (by intro hh; cases hh)

/-- Runtime configuration record (`struct RuntimeConfig`,
src/src/config.rs). -/
structure RuntimeConfig where
  hibernate : Bool
  poll_interval_ms : Nat
  poll_failure_timeout_ms : Nat
  shutdown_timeout_s : Nat
  hid_usage_page : Option Nat
  hid_usage_id : Option Nat
  vendor_id : Nat
  product_id : Nat
deriving DecidableEq, Repr

/-- Externally visible actions of the poller, over an abstract snapshot
type `σ`. -/
inductive PollAction (σ : Type) where
  | openDevice (usage_page usage_id : Option Nat) (vendor_id product_id : Nat)
  | publish (value : Option σ)
  | sleep (ms : Nat)
  | warnQueryFailed
deriving DecidableEq, Repr

/-- One outer-loop iteration of the environment script: the result of
`HidDevice::new`, and (when the open succeeded) the statuses returned
by `ups.status()` before the inner `while let Ok` loop breaks on a
status failure. -/
structure PollIteration (σ : Type) where
  openResult : Except String Unit
  statuses : List σ
deriving DecidableEq, Repr

/-- Outcome of running the poller against a finite script. -/
inductive PollOutcome where
  | terminated (e : String)
  | awaitingScript
deriving DecidableEq, Repr

/-- Trace of the inner `while let Ok(status) = ups.status().await`
loop: each successful status is published as `Some` on the watch
channel, followed by a `poll_interval_ms` sleep. -/
def pollInnerTrace (interval : Nat) : List σ → List (PollAction σ)
  | [] => []
  | st :: rest =>
    PollAction.publish (some st) :: PollAction.sleep interval ::
      pollInnerTrace interval rest

/-- Model of `ups_query_task` (src/src/main.rs lines 257-281).  Each
iteration attempts `HidDevice::new(usage_page, usage_id, vendor_id,
product_id)`; the trailing `?` propagates an open failure out of the
task (terminating it).  On success the inner loop publishes statuses
until one fails, then the task logs "UPS query failed", sleeps
`poll_failure_timeout_ms` and re-runs the outer loop. -/
def ups_query_task (cfg : RuntimeConfig) :
    List (PollIteration σ) → List (PollAction σ) × PollOutcome
  | [] => ([], PollOutcome.awaitingScript)
  | it :: rest =>
    let openAct : PollAction σ :=
      PollAction.openDevice cfg.hid_usage_page cfg.hid_usage_id
        cfg.vendor_id cfg.product_id
    match it.openResult with
    | Except.error e => ([openAct], PollOutcome.terminated e)
    | Except.ok _ =>
      let next := ups_query_task cfg rest
      (openAct :: (pollInnerTrace cfg.poll_interval_ms it.statuses ++
        PollAction.warnQueryFailed ::
          PollAction.sleep cfg.poll_failure_timeout_ms :: next.1),
       next.2)

/-- Values sent on the latest-snapshot watch channel by the poller (the
sole writer, `tx.send(Some(status))`). -/
def pollerPublished (cfg : RuntimeConfig) (script : List (PollIteration σ)) :
    List (Option σ) :=
  (ups_query_task cfg script).1.filterMap fun a =>
    match a with
    | PollAction.publish v => some v
    | _ => none

/-- Successive values held by the latest-snapshot channel: the initial
value of `watch::channel(None)` followed by each value sent by the
poller. -/
def channelHistory (cfg : RuntimeConfig) (script : List (PollIteration σ)) :
    List (Option σ) :=
  none :: pollerPublished cfg script

/-! Shutdown supervisor (`main_loop`, src/src/main.rs lines 283-329).

The supervisor is an event loop over three waits: S0 (awaiting power
loss), the grace period (a three-way select), and S2 (awaiting resume
or power recovery).  Each wait consumes one event of the script; the
event carries which arm of the select won, and, for the shutdown arms,
the results of `WAKEUP.reset()` and of `initiate_shutdown` (both are
host capabilities whose outcome is part of the environment). -/

/-- Resolution of one supervisor wait. -/
inductive SupEvent where
  | powerLoss
  | statusWaitError (e : String)
  | graceTimerElapsed (resetResult shutdownResult : Except String Unit)
  | graceLowBattery (resetResult shutdownResult : Except String Unit)
  | gracePowerRestored
  | resumeSignaled
  | resumePowerRestored
deriving DecidableEq, Repr

/-- Externally visible actions of the supervisor. -/
inductive SupAction where
  | notifyShutdownMessage
  | resetWakeup
  | initiateShutdown (hibernate : Bool)
deriving DecidableEq, Repr

/-- Control position of the supervisor between waits. -/
inductive SupState where
  | normal
  | grace
  | awaitingResume
deriving DecidableEq, Repr

/-- Outcome of running the supervisor against a finite script.
`stuck` marks a script event that cannot resolve the wait the
supervisor is actually in (no real execution produces it). -/
inductive SupOutcome where
  | terminated (e : String)
  | awaitingScript
  | stuck
deriving DecidableEq, Repr

/-- Model of `main_loop` (src/src/main.rs lines 283-329), as a function
of the current control position and the event script.

In S0 (`wait_for_power_loss`): a qualifying snapshot enters the grace
period, whose entry action is `send_shutdown_message`; a channel error
propagates out through `?`.  In the grace select: the grace-timer and
low-battery arms run `WAKEUP.reset()?` then `initiate_shutdown(...)?`,
either failure propagating out of `main_loop`; on success control
moves past the "Shutdown/hibernation initiated" point into S2; the
power-recovery arm continues the outer loop.  In S2: a wakeup or a
power recovery both continue the outer loop. -/
def main_loop_go (cfg : RuntimeConfig) :
    SupState → List SupEvent → List SupAction × SupOutcome
  | _, [] => ([], SupOutcome.awaitingScript)
  | SupState.normal, ev :: rest =>
    match ev with
    | SupEvent.powerLoss =>
      let next := main_loop_go cfg SupState.grace rest
      (SupAction.notifyShutdownMessage :: next.1, next.2)
    | SupEvent.statusWaitError e => ([], SupOutcome.terminated e)
    | _ => ([], SupOutcome.stuck)
  | SupState.grace, ev :: rest =>
    match ev with
    | SupEvent.graceTimerElapsed rr sr =>
      match rr with
      | Except.error e => ([SupAction.resetWakeup], SupOutcome.terminated e)
      | Except.ok _ =>
        match sr with
        | Except.error e =>
          ([SupAction.resetWakeup, SupAction.initiateShutdown cfg.hibernate],
           SupOutcome.terminated e)
        | Except.ok _ =>
          let next := main_loop_go cfg SupState.awaitingResume rest
          (SupAction.resetWakeup :: SupAction.initiateShutdown cfg.hibernate ::
            next.1, next.2)
    | SupEvent.graceLowBattery rr sr =>
      match rr with
      | Except.error e => ([SupAction.resetWakeup], SupOutcome.terminated e)
      | Except.ok _ =>
        match sr with
        | Except.error e =>
          ([SupAction.resetWakeup, SupAction.initiateShutdown cfg.hibernate],
           SupOutcome.terminated e)
        | Except.ok _ =>
          let next := main_loop_go cfg SupState.awaitingResume rest
          (SupAction.resetWakeup :: SupAction.initiateShutdown cfg.hibernate ::
            next.1, next.2)
    | SupEvent.gracePowerRestored => main_loop_go cfg SupState.normal rest
    | SupEvent.statusWaitError e => ([], SupOutcome.terminated e)
    | _ => ([], SupOutcome.stuck)
  | SupState.awaitingResume, ev :: rest =>
    match ev with
    | SupEvent.resumeSignaled => main_loop_go cfg SupState.normal rest
    | SupEvent.resumePowerRestored => main_loop_go cfg SupState.normal rest
    | SupEvent.statusWaitError e => ([], SupOutcome.terminated e)
    | _ => ([], SupOutcome.stuck)

/-- Model of `main_loop` started, as in the code, in the normal state. -/
def main_loop (cfg : RuntimeConfig) (script : List SupEvent) :
    List SupAction × SupOutcome :=
  main_loop_go cfg SupState.normal script

/-! Framed output-report construction (src/ups/src/hid_device.rs). -/

/-- Model of `HidDevice::create_output_report` (src/ups/src/hid_device.rs
lines 103-114).  The outer `Option` models the
`assert!(self.output_report_size >= 1)`; oversized data is a hard
error; otherwise the report is the report ID byte, the data bytes, and
zero padding up to `output_report_size`. -/
def create_output_report (output_report_size report_id : Nat)
    (data : List Nat) : Option (Except String (List Nat)) :=
  if output_report_size < 1 then none
  else if data.length > output_report_size - 1 then
    some (Except.error "Supplied data does not fit in report")
  else
    some (Except.ok
      (report_id :: (data ++ List.replicate (output_report_size - 1 - data.length) 0)))

/-- Model of `HidDevice::send_output_report` (src/ups/src/hid_device.rs
lines 90-101): build the report, and only then write it to the output
stream.  The second component records the reports actually written to
the device. -/
def send_output_report (output_report_size report_id : Nat)
    (data : List Nat) : Option (Except String Unit × List (List Nat)) :=
  match create_output_report output_report_size report_id data with
  | none => none
  | some (Except.error e) => some (Except.error e, [])
  | some (Except.ok report) => some (Except.ok (), [report])

/-! Specification-side definitions used for comparison with the code. -/

/-- Work-mode priority rule, written from the words of the
specification: `UPS_FAULT` set yields `Fault`; else `UTILITY_FAIL` set
yields `Battery`; else `SELF_TEST_IN_PROGRESS` set yields
`BatteryTest`; else `Line` ("set" meaning the bit is present). -/
def specWorkModeRule (b : Nat) : UpsWorkMode :=
  if b &&& UpsStatusFlags.UPS_FAULT ≠ 0 then .Fault
  else if b &&& UpsStatusFlags.UTILITY_FAIL ≠ 0 then .Battery
  else if b &&& UpsStatusFlags.SELF_TEST_IN_PROGRESS ≠ 0 then .BatteryTest
  else .Line

/-- Rendering of a flags byte as exactly eight ASCII binary digits,
most significant bit first, written from the words of the
specification (the device side of the wire format; it has no
counterpart in the source tree). -/
def formatBinary8 (b : Nat) : List Char :=
  (List.range 8).map fun i => if b / 2 ^ (7 - i) % 2 = 1 then '1' else '0'

/-- Concrete instance of the abstract `f32` model, used to evaluate the
theorems on concrete inputs: a string of digits and dots parses, and
anything else fails. -/
inductive SampleF32 where
  | nanv
  | val (digits : List Char)
deriving DecidableEq, Repr

/-- Parse function of the concrete `f32` model. -/
def sampleFloatModel : FloatModel SampleF32 where
  nan := SampleF32.nanv
  parse := fun s =>
    if s ≠ [] ∧ s.all (fun c => c.isDigit || c == '.') then
      some (SampleF32.val s)
    else none

/-- Concrete configuration (the defaults of the configuration record),
used to evaluate the theorems on concrete inputs. -/
def sampleConfig : RuntimeConfig where
  hibernate := true
  poll_interval_ms := 1000
  poll_failure_timeout_ms := 10000
  shutdown_timeout_s := 300
  hid_usage_page := some 0xFF00
  hid_usage_id := some 0x0001
  vendor_id := 0x0665
  product_id := 0x5161

/-- Example status response of the specification (scenario 6),
used to evaluate the theorems on a concrete input. -/
def sampleStatusChars : List Char :=
  "(220.0 220.0 220.0 035 50.0 27.5 25.0 00001000\r".toList

/-- Snapshot that parsing `sampleStatusChars` produces under the
concrete `f32` model. -/
def sampleParsedStatus : UpsStatus SampleF32 where
  input_voltage := SampleF32.val "220.0".toList
  input_fault_voltage := SampleF32.val "220.0".toList
  output_voltage := SampleF32.val "220.0".toList
  output_load_level := 35
  output_frequency := SampleF32.val "50.0".toList
  battery_voltage := SampleF32.val "27.5".toList
  internal_temperature := SampleF32.val "25.0".toList
  flags := 8

/-- Ordering discipline on supervisor traces: no trace begins with a
shutdown initiation, and every shutdown initiation is immediately
preceded by a reset of the resume-event. -/
def ResetPrecedes (l : List SupAction) : Prop :=
  (∀ b, l.head? ≠ some (SupAction.initiateShutdown b)) ∧
  (∀ j b, l[j + 1]? = some (SupAction.initiateShutdown b) →
    l[j]? = some SupAction.resetWakeup)

/-- Well-framed status string in which every field is unparseable,
used to evaluate the lossy-substitution policy on a concrete input. -/
def lossySampleChars : List Char := "(a b c d e f g h\r".toList

/-- Fields of `lossySampleChars`. -/
def lossyParts : List (List Char) :=
  splitWhitespace ((lossySampleChars.drop 1).dropLast)

/-! Lemma layer: codec. -/

/-- All eight bits of the flags byte are named, so `all()` is the whole
byte. -/
theorem UpsStatusFlags.allBits_eq : UpsStatusFlags.allBits = 255 := by decide

/-- With every bit of the `u8` named, `from_bits` succeeds on any byte
value (this is why the `.unwrap()` in `from_str` cannot panic). -/
theorem UpsStatusFlags.from_bits_eq (b : Nat) :
    UpsStatusFlags.from_bits b = some b := by
  simp [UpsStatusFlags.from_bits, UpsStatusFlags.allBits_eq]

/-- Fields produced by the whitespace splitter are never empty. -/
theorem splitWhitespaceAux_ne_nil (cs : List Char) :
    ∀ acc, ∀ p ∈ splitWhitespaceAux cs acc, p ≠ [] := by
  induction cs with
  | nil =>
    intro acc p hp
    by_cases h : acc.isEmpty
    · simp [splitWhitespaceAux, h] at hp
    · simp [splitWhitespaceAux, h] at hp
      subst hp
      simp only [ne_eq, List.reverse_eq_nil_iff]
      simpa [List.isEmpty_iff] using h
  | cons c cs ih =>
    intro acc p hp
    by_cases hw : rustIsWhitespace c
    · by_cases ha : acc.isEmpty
      · rw [splitWhitespaceAux, if_pos hw, if_pos ha] at hp
        exact ih [] p hp
      · rw [splitWhitespaceAux, if_pos hw, if_neg ha] at hp
        rcases List.mem_cons.mp hp with hp | hp
        · subst hp
          simp only [ne_eq, List.reverse_eq_nil_iff]
          simpa [List.isEmpty_iff] using ha
        · exact ih [] p hp
    · rw [splitWhitespaceAux, if_neg hw] at hp
      exact ih (c :: acc) p hp

/-- Every field of `split_whitespace` is non-empty. -/
theorem splitWhitespace_ne_nil (cs : List Char) :
    ∀ p ∈ splitWhitespace cs, p ≠ [] :=
  splitWhitespaceAux_ne_nil cs []

/-- A list whose last element is known decomposes as an append. -/
theorem eq_concat_of_getLast? {β : Type} {l : List β} {a : β}
    (h : l.getLast? = some a) : ∃ t, l = t ++ [a] :=
  ⟨l.dropLast, (List.dropLast_append_getLast? a (by simp [Option.mem_def, h])).symm⟩

/-- A string that begins with the header and ends with the terminator
decomposes as header, interior, terminator; the interior is exactly
the character-level rendering of the byte slice `[1 .. len - 1]`. -/
theorem framed_decomp {s : List Char} (h1 : s.head? = some '(')
    (h2 : s.getLast? = some '\r') :
    s = '(' :: ((s.drop 1).dropLast ++ ['\r']) := by
  obtain ⟨t, rfl⟩ : ∃ t, s = '(' :: t := by
    cases s with
    | nil => simp at h1
    | cons c cs =>
      refine ⟨cs, ?_⟩
      simp only [List.head?_cons, Option.some.injEq] at h1
      rw [h1]
  have ht : t ≠ [] := by
    rintro rfl
    simp at h2
  have h3 : t.getLast? = some '\r' := by
    cases t with
    | nil => exact absurd rfl ht
    | cons x xs => rwa [List.getLast?_cons_cons] at h2
  obtain ⟨u, hu⟩ := eq_concat_of_getLast? h3
  rw [hu]
  simp [List.dropLast_concat]

/-- Computation of `from_str` on a framed string: the slice succeeds
(header and terminator are single-byte), and the result is decided by
the field count alone; the flags `.unwrap()` always succeeds. -/
theorem from_str_framed (F : FloatModel α) (mid : List Char) :
    UpsStatus.from_str F ('(' :: (mid ++ ['\r'])) =
      (if (splitWhitespace mid).length = 8 then
        some (Except.ok (buildStatus F (splitWhitespace mid)
          ((u8FromStrRadix2 ((splitWhitespace mid).getD 7 [])).getD 0)))
      else some (Except.error "Unexpected number of status string parts")) := by
  have hlast : ('(' :: (mid ++ ['\r'])).getLast? = some '\r' := by
    rw [← List.cons_append]
    exact List.getLast?_concat _
  have hsz1 : ('(' : Char).utf8Size = 1 := by decide
  have hsz2 : ('\r' : Char).utf8Size = 1 := by decide
  have hslice : byteSliceInterior ('(' :: (mid ++ ['\r'])) = some mid := by
    rw [byteSliceInterior, List.getLast?_concat]
    simp [hsz1, hsz2, List.dropLast_concat]
  by_cases h8 : (splitWhitespace mid).length = 8
  · rw [if_pos h8]
    simp only [UpsStatus.from_str, List.head?_cons, hlast, hslice, h8,
      UpsStatusFlags.from_bits_eq]
    simp
  · rw [if_neg h8]
    simp only [UpsStatus.from_str, List.head?_cons, hlast, hslice,
      UpsStatusFlags.from_bits_eq]
    simp [h8]

/-- The binary-digit accumulator never exceeds `u8::MAX`. -/
theorem parseBinDigitsU8_le (cs : List Char) :
    ∀ acc, acc ≤ 255 → ∀ v, parseBinDigitsU8 acc cs = some v → v ≤ 255 := by
  induction cs with
  | nil =>
    intro acc hacc v hv
    rw [parseBinDigitsU8] at hv
    cases hv
    exact hacc
  | cons c cs ih =>
    intro acc hacc v hv
    rw [parseBinDigitsU8] at hv
    by_cases hc0 : c = '0'
    · rw [if_pos hc0] at hv
      by_cases hb : acc * 2 + 0 > 255
      · rw [if_pos hb] at hv
        exact absurd hv (by simp)
      · rw [if_neg hb] at hv
        exact ih _ (by omega) v hv
    · rw [if_neg hc0] at hv
      by_cases hc1 : c = '1'
      · rw [if_pos hc1] at hv
        by_cases hb : acc * 2 + 1 > 255
        · rw [if_pos hb] at hv
          exact absurd hv (by simp)
        · rw [if_neg hb] at hv
          exact ih _ (by omega) v hv
      · rw [if_neg hc1] at hv
        exact absurd hv (by simp)

/-- A value parsed by `u8::from_str_radix(_, 2)` fits in a byte. -/
theorem u8FromStrRadix2_le {s : List Char} {v : Nat}
    (h : u8FromStrRadix2 s = some v) : v ≤ 255 := by
  cases s with
  | nil => simp [u8FromStrRadix2] at h
  | cons c rest =>
    rw [u8FromStrRadix2] at h
    by_cases hp : c = '+'
    · rw [if_pos hp] at h
      by_cases he : rest.isEmpty
      · rw [if_pos he] at h
        exact absurd h (by simp)
      · rw [if_neg he] at h
        exact parseBinDigitsU8_le _ 0 (by omega) v h
    · rw [if_neg hp] at h
      exact parseBinDigitsU8_le _ 0 (by omega) v h

/-- The flags value actually stored in a snapshot fits in a byte. -/
theorem flagsField_le (s : List Char) : (u8FromStrRadix2 s).getD 0 ≤ 255 := by
  cases hv : u8FromStrRadix2 s with
  | none => simp
  | some v => simpa using u8FromStrRadix2_le hv

/-- Inversion of a successful parse: the input was framed with eight
fields, and the snapshot is exactly the record built from those
fields. -/
theorem from_str_ok_inv {α : Type} {F : FloatModel α} {s : List Char}
    {st : UpsStatus α} (h : UpsStatus.from_str F s = some (Except.ok st)) :
    s.head? = some '(' ∧ s.getLast? = some '\r' ∧
      (splitWhitespace ((s.drop 1).dropLast)).length = 8 ∧
      st = buildStatus F (splitWhitespace ((s.drop 1).dropLast))
        ((u8FromStrRadix2
          ((splitWhitespace ((s.drop 1).dropLast)).getD 7 [])).getD 0) := by
  cases s with
  | nil => simp [UpsStatus.from_str] at h
  | cons c t =>
    by_cases hc : c = '('
    · subst hc
      obtain ⟨lc, h2⟩ : ∃ lc, ('(' :: t).getLast? = some lc := by
        rw [List.getLast?_eq_head?_reverse]
        cases hr : ('(' :: t).reverse with
        | nil => simp at hr
        | cons x xs => exact ⟨x, rfl⟩
      by_cases hl : lc = '\r'
      · subst hl
        have hdec := framed_decomp (by simp) h2
        rw [hdec, from_str_framed] at h
        by_cases h8 :
            (splitWhitespace ((('(' :: t).drop 1).dropLast)).length = 8
        · rw [if_pos h8] at h
          simp only [Option.some.injEq, Except.ok.injEq] at h
          exact ⟨by simp, h2, h8, h.symm⟩
        · rw [if_neg h8] at h
          exact absurd h (by simp)
      · simp [UpsStatus.from_str, h2, hl] at h
    · simp [UpsStatus.from_str, hc] at h

/-- Evaluation of `from_str` in the error cases that precede the
slice: empty input, wrong header, wrong terminator. -/
theorem from_str_err_cases {α : Type} (F : FloatModel α) :
    (UpsStatus.from_str F [] = some (Except.error "Status string too short")) ∧
    (∀ c t, c ≠ '(' → UpsStatus.from_str F (c :: t) =
      some (Except.error "Unexpected status string header")) ∧
    (∀ t lc, ('(' :: t).getLast? = some lc → lc ≠ '\r' →
      UpsStatus.from_str F ('(' :: t) =
        some (Except.error "Unexpected status string terminator")) := by
  refine ⟨rfl, ?_, ?_⟩
  · intro c t hc
    simp [UpsStatus.from_str, hc]
  · intro t lc h2 hl
    simp [UpsStatus.from_str, h2, hl]

/-- The code's `contains`-based work-mode conditional agrees, on every
byte, with the bit-set priority rule of the specification. -/
theorem fcontains_rule_agree : ∀ b, b < 256 →
    ((if UpsStatusFlags.fcontains b UpsStatusFlags.UPS_FAULT then
        UpsWorkMode.Fault
      else if UpsStatusFlags.fcontains b UpsStatusFlags.UTILITY_FAIL then
        UpsWorkMode.Battery
      else if UpsStatusFlags.fcontains b UpsStatusFlags.SELF_TEST_IN_PROGRESS then
        UpsWorkMode.BatteryTest
      else UpsWorkMode.Line) = specWorkModeRule b) := by decide

/-! Claim theorems: codec. -/

/-- Claim C10: `UpsStatus::from_str` is total — on every input it
returns `Ok` or `Err` and never panics (`some r` in this embedding,
where the outer `none` models the two potential panic sites: the byte
slice `&string[1..len-1]` and the `.unwrap()` on `from_bits`). -/
theorem from_str_total {α : Type} (F : FloatModel α) (s : List Char) :
    ∃ r, UpsStatus.from_str F s = some r := by
  cases s with
  | nil => exact ⟨Except.error "Status string too short", rfl⟩
  | cons c t =>
    by_cases hc : c = '('
    · subst hc
      obtain ⟨lc, h2⟩ : ∃ lc, ('(' :: t).getLast? = some lc := by
        rw [List.getLast?_eq_head?_reverse]
        cases hr : ('(' :: t).reverse with
        | nil => simp at hr
        | cons x xs => exact ⟨x, rfl⟩
      by_cases hl : lc = '\r'
      · subst hl
        rw [framed_decomp (by simp) h2, from_str_framed]
        by_cases h8 :
            (splitWhitespace ((('(' :: t).drop 1).dropLast)).length = 8
        · rw [if_pos h8]
          exact ⟨_, rfl⟩
        · rw [if_neg h8]
          exact ⟨_, rfl⟩
      · exact ⟨_, (from_str_err_cases F).2.2 t lc h2 hl⟩
    · exact ⟨_, (from_str_err_cases F).2.1 c t hc⟩

/-- Claim C4: `from_str` returns `Ok` if and only if the input begins
with the header, ends with the terminator, and the text between them
splits on runs of whitespace (Rust `char::is_whitespace`, which agrees
with the ASCII whitespace set on ASCII text) into exactly eight
non-empty fields; every violation returns a hard error (`from_str` is
total by `from_str_total`, so not-`Ok` means `Err`). -/
theorem status_parse_ok_iff {α : Type} (F : FloatModel α) (s : List Char) :
    (∃ st, UpsStatus.from_str F s = some (Except.ok st)) ↔
      (s.head? = some '(' ∧ s.getLast? = some '\r' ∧
        (splitWhitespace ((s.drop 1).dropLast)).length = 8 ∧
        ∀ p ∈ splitWhitespace ((s.drop 1).dropLast), p ≠ []) := by
  constructor
  · rintro ⟨st, hst⟩
    obtain ⟨h1, h2, h8, -⟩ := from_str_ok_inv hst
    exact ⟨h1, h2, h8, splitWhitespace_ne_nil _⟩
  · rintro ⟨h1, h2, h8, -⟩
    rw [framed_decomp h1 h2, from_str_framed, if_pos h8]
    exact ⟨_, rfl⟩

/-- Witness for C4: the specification's example status response
satisfies the framing condition and hence parses. -/
theorem status_parse_ok_iff_witness :
    ∃ st, UpsStatus.from_str sampleFloatModel sampleStatusChars =
      some (Except.ok st) :=
  (status_parse_ok_iff sampleFloatModel sampleStatusChars).mpr (by decide)

/-- Claim C5: on every well-framed status string, parsing succeeds and
substitutes field by field: an unparseable float field becomes `NaN`,
an unparseable `output_load_level` becomes `0`, and an unparseable
`flags_binary` field becomes flags `0x00`; the snapshot is still
emitted. -/
theorem from_str_lossy {α : Type} (F : FloatModel α) (s : List Char)
    (h1 : s.head? = some '(') (h2 : s.getLast? = some '\r')
    (h8 : (splitWhitespace ((s.drop 1).dropLast)).length = 8) :
    ∃ st, UpsStatus.from_str F s = some (Except.ok st) ∧
      (F.parse ((splitWhitespace ((s.drop 1).dropLast)).getD 0 []) = none →
        st.input_voltage = F.nan) ∧
      (F.parse ((splitWhitespace ((s.drop 1).dropLast)).getD 1 []) = none →
        st.input_fault_voltage = F.nan) ∧
      (F.parse ((splitWhitespace ((s.drop 1).dropLast)).getD 2 []) = none →
        st.output_voltage = F.nan) ∧
      (u32FromStrDec ((splitWhitespace ((s.drop 1).dropLast)).getD 3 []) = none →
        st.output_load_level = 0) ∧
      (F.parse ((splitWhitespace ((s.drop 1).dropLast)).getD 4 []) = none →
        st.output_frequency = F.nan) ∧
      (F.parse ((splitWhitespace ((s.drop 1).dropLast)).getD 5 []) = none →
        st.battery_voltage = F.nan) ∧
      (F.parse ((splitWhitespace ((s.drop 1).dropLast)).getD 6 []) = none →
        st.internal_temperature = F.nan) ∧
      (u8FromStrRadix2 ((splitWhitespace ((s.drop 1).dropLast)).getD 7 []) = none →
        st.flags = 0) := by
  refine ⟨buildStatus F (splitWhitespace ((s.drop 1).dropLast))
      ((u8FromStrRadix2
        ((splitWhitespace ((s.drop 1).dropLast)).getD 7 [])).getD 0),
    ?_, ?_, ?_, ?_, ?_, ?_, ?_, ?_, ?_⟩
  · conv_lhs => rw [framed_decomp h1 h2]
    rw [from_str_framed, if_pos h8]
  · intro hp
    show (F.parse ((splitWhitespace ((s.drop 1).dropLast)).getD 0 [])).getD
      F.nan = F.nan
    rw [hp]
    rfl
  · intro hp
    show (F.parse ((splitWhitespace ((s.drop 1).dropLast)).getD 1 [])).getD
      F.nan = F.nan
    rw [hp]
    rfl
  · intro hp
    show (F.parse ((splitWhitespace ((s.drop 1).dropLast)).getD 2 [])).getD
      F.nan = F.nan
    rw [hp]
    rfl
  · intro hp
    show (u32FromStrDec ((splitWhitespace ((s.drop 1).dropLast)).getD 3 [])).getD
      0 = 0
    rw [hp]
    rfl
  · intro hp
    show (F.parse ((splitWhitespace ((s.drop 1).dropLast)).getD 4 [])).getD
      F.nan = F.nan
    rw [hp]
    rfl
  · intro hp
    show (F.parse ((splitWhitespace ((s.drop 1).dropLast)).getD 5 [])).getD
      F.nan = F.nan
    rw [hp]
    rfl
  · intro hp
    show (F.parse ((splitWhitespace ((s.drop 1).dropLast)).getD 6 [])).getD
      F.nan = F.nan
    rw [hp]
    rfl
  · intro hp
    show (u8FromStrRadix2 ((splitWhitespace ((s.drop 1).dropLast)).getD 7 [])).getD
      0 = 0
    rw [hp]
    rfl

/-- Witness for C5: a framed response whose eight fields are all
unparseable still yields a snapshot, with `NaN` floats, load level 0
and flags `0x00`. -/
theorem from_str_lossy_witness :
    ∃ st, UpsStatus.from_str sampleFloatModel lossySampleChars =
        some (Except.ok st) ∧
      (sampleFloatModel.parse (lossyParts.getD 0 []) = none →
        st.input_voltage = sampleFloatModel.nan) ∧
      (sampleFloatModel.parse (lossyParts.getD 1 []) = none →
        st.input_fault_voltage = sampleFloatModel.nan) ∧
      (sampleFloatModel.parse (lossyParts.getD 2 []) = none →
        st.output_voltage = sampleFloatModel.nan) ∧
      (u32FromStrDec (lossyParts.getD 3 []) = none →
        st.output_load_level = 0) ∧
      (sampleFloatModel.parse (lossyParts.getD 4 []) = none →
        st.output_frequency = sampleFloatModel.nan) ∧
      (sampleFloatModel.parse (lossyParts.getD 5 []) = none →
        st.battery_voltage = sampleFloatModel.nan) ∧
      (sampleFloatModel.parse (lossyParts.getD 6 []) = none →
        st.internal_temperature = sampleFloatModel.nan) ∧
      (u8FromStrRadix2 (lossyParts.getD 7 []) = none → st.flags = 0) :=
  from_str_lossy sampleFloatModel lossySampleChars
    (by decide) (by decide) (by decide)

/-- Claim C3: for every parsed snapshot, `work_mode` is the pure
function of the flags byte given by the priority rule with first match
winning (fault, then battery, then battery test, then line). -/
theorem work_mode_matches_rule {α : Type} (F : FloatModel α) (s : List Char)
    (st : UpsStatus α) (h : UpsStatus.from_str F s = some (Except.ok st)) :
    st.work_mode = specWorkModeRule st.flags := by
  obtain ⟨-, -, -, hst⟩ := from_str_ok_inv h
  have hb : st.flags ≤ 255 := by
    rw [hst]
    exact flagsField_le _
  exact fcontains_rule_agree st.flags (by omega)

/-- Witness for C3: the snapshot parsed from the example status
response obeys the priority rule. -/
theorem work_mode_matches_rule_witness :
    sampleParsedStatus.work_mode = specWorkModeRule sampleParsedStatus.flags :=
  work_mode_matches_rule sampleFloatModel sampleStatusChars sampleParsedStatus
    (by decide)

/-- Claim C6: rendering any flags byte as its eight-binary-digit
representation and parsing that string as the flags field of a status
response is parsed (base-2 `u8` parse, then `from_bits`) round-trips
to exactly that byte. -/
theorem flags_roundtrip : ∀ b, b < 256 →
    UpsStatusFlags.from_bits ((u8FromStrRadix2 (formatBinary8 b)).getD 0) =
      some b := by decide

/-- Witness for C6: the round-trip at byte `0b10101010`. -/
theorem flags_roundtrip_witness :
    170 < 256 ∧
      UpsStatusFlags.from_bits
        ((u8FromStrRadix2 (formatBinary8 170)).getD 0) = some 170 :=
  ⟨by decide, flags_roundtrip 170 (by decide)⟩

/-! Lemma layer: poller and supervisor. -/

/-- Every value published by the inner polling loop is `Some`. -/
theorem pollInnerTrace_publish_some {σ : Type} (interval : Nat)
    (sts : List σ) :
    ∀ v, PollAction.publish v ∈ pollInnerTrace interval sts →
      v.isSome = true := by
  induction sts with
  | nil =>
    intro v hv
    simp [pollInnerTrace] at hv
  | cons st rest ih =>
    intro v hv
    rw [pollInnerTrace] at hv
    rcases List.mem_cons.mp hv with h | h
    · simp only [PollAction.publish.injEq] at h
      subst h
      rfl
    · rcases List.mem_cons.mp h with h2 | h2
      · exact absurd h2 (by simp)
      · exact ih v h2

/-- The poller, the sole writer of the latest-snapshot channel, only
ever sends `Some` values. -/
theorem poller_publishes_some {σ : Type} (cfg : RuntimeConfig)
    (script : List (PollIteration σ)) :
    ∀ v ∈ pollerPublished cfg script, v.isSome = true := by
  induction script with
  | nil =>
    intro v hv
    simp [pollerPublished, ups_query_task] at hv
  | cons it rest ih =>
    intro v hv
    cases hor : it.openResult with
    | error e =>
      simp [pollerPublished, ups_query_task, hor] at hv
    | ok u =>
      simp only [pollerPublished, ups_query_task, hor, List.filterMap_cons,
        List.filterMap_append] at hv
      rcases List.mem_append.mp hv with h | h
      · rcases List.mem_filterMap.mp h with ⟨a, ha, hfa⟩
        cases a with
        | publish w =>
          simp only [Option.some.injEq] at hfa
          subst hfa
          exact pollInnerTrace_publish_some _ _ w ha
        | openDevice up ui vid pid => exact absurd hfa (by simp)
        | sleep ms => exact absurd hfa (by simp)
        | warnQueryFailed => exact absurd hfa (by simp)
      · exact ih v h

/-- The empty trace satisfies the ordering discipline. -/
theorem resetPrecedes_nil : ResetPrecedes [] := by
  constructor
  · intro b
    simp
  · intro j b hj
    simp at hj

/-- Prepending any action other than a shutdown initiation preserves
the ordering discipline. -/
theorem resetPrecedes_cons {l : List SupAction} (a : SupAction)
    (hne : ∀ b, a ≠ SupAction.initiateShutdown b) (hl : ResetPrecedes l) :
    ResetPrecedes (a :: l) := by
  constructor
  · intro b
    simp only [List.head?_cons, ne_eq, Option.some.injEq]
    exact hne b
  · intro j b hj
    cases j with
    | zero =>
      rw [List.getElem?_cons_succ] at hj
      exfalso
      apply hl.1 b
      rw [List.head?_eq_getElem?]
      exact hj
    | succ k =>
      rw [List.getElem?_cons_succ] at hj
      rw [List.getElem?_cons_succ]
      exact hl.2 k b hj

/-- Prepending the reset-then-initiate pair preserves the ordering
discipline. -/
theorem resetPrecedes_shutdown_cons {l : List SupAction} (b : Bool)
    (hl : ResetPrecedes l) :
    ResetPrecedes
      (SupAction.resetWakeup :: SupAction.initiateShutdown b :: l) := by
  constructor
  · intro c
    simp
  · intro j c hj
    match j with
    | 0 => rfl
    | 1 =>
      exfalso
      rw [List.getElem?_cons_succ, List.getElem?_cons_succ] at hj
      apply hl.1 c
      rw [List.head?_eq_getElem?]
      exact hj
    | (k + 2) =>
      rw [List.getElem?_cons_succ, List.getElem?_cons_succ] at hj
      rw [List.getElem?_cons_succ, List.getElem?_cons_succ]
      exact hl.2 k c hj

/-- Every trace the supervisor can produce, from any control position,
satisfies the ordering discipline. -/
theorem main_loop_go_resetPrecedes (cfg : RuntimeConfig)
    (script : List SupEvent) :
    ∀ st, ResetPrecedes (main_loop_go cfg st script).1 := by
  induction script with
  | nil =>
    intro st
    cases st <;> exact resetPrecedes_nil
  | cons ev rest ih =>
    intro st
    cases st with
    | normal =>
      cases ev with
      | powerLoss =>
        exact resetPrecedes_cons _ (by intro b h; cases h)
          (ih SupState.grace)
      | statusWaitError e => exact resetPrecedes_nil
      | graceTimerElapsed rr sr => exact resetPrecedes_nil
      | graceLowBattery rr sr => exact resetPrecedes_nil
      | gracePowerRestored => exact resetPrecedes_nil
      | resumeSignaled => exact resetPrecedes_nil
      | resumePowerRestored => exact resetPrecedes_nil
    | grace =>
      cases ev with
      | graceTimerElapsed rr sr =>
        cases rr with
        | error e =>
          exact resetPrecedes_cons _ (by intro b h; cases h) resetPrecedes_nil
        | ok u =>
          cases sr with
          | error e => exact resetPrecedes_shutdown_cons _ resetPrecedes_nil
          | ok u2 =>
            exact resetPrecedes_shutdown_cons _ (ih SupState.awaitingResume)
      | graceLowBattery rr sr =>
        cases rr with
        | error e =>
          exact resetPrecedes_cons _ (by intro b h; cases h) resetPrecedes_nil
        | ok u =>
          cases sr with
          | error e => exact resetPrecedes_shutdown_cons _ resetPrecedes_nil
          | ok u2 =>
            exact resetPrecedes_shutdown_cons _ (ih SupState.awaitingResume)
      | gracePowerRestored => exact ih SupState.normal
      | statusWaitError e => exact resetPrecedes_nil
      | powerLoss => exact resetPrecedes_nil
      | resumeSignaled => exact resetPrecedes_nil
      | resumePowerRestored => exact resetPrecedes_nil
    | awaitingResume =>
      cases ev with
      | resumeSignaled => exact ih SupState.normal
      | resumePowerRestored => exact ih SupState.normal
      | statusWaitError e => exact resetPrecedes_nil
      | powerLoss => exact resetPrecedes_nil
      | graceTimerElapsed rr sr => exact resetPrecedes_nil
      | graceLowBattery rr sr => exact resetPrecedes_nil
      | gracePowerRestored => exact resetPrecedes_nil

/-! Claim theorems: poller, supervisor, HID report. -/

/-- Counterexample to claim C1: with a single failing device open, the
poller terminates at once with the propagated error — its trace
contains no sleep at all, so it neither waits `poll_failure_timeout_ms`
nor retries the open, and the failure does propagate out of the task
(`HidDevice::new(...).await?` in `ups_query_task`). -/
theorem poller_open_failure_counterexample :
    (ups_query_task (σ := Unit) sampleConfig
        [⟨Except.error "device open failed", []⟩]).2 =
      PollOutcome.terminated "device open failed" ∧
    ∀ ms, PollAction.sleep (σ := Unit) ms ∉
      (ups_query_task (σ := Unit) sampleConfig
        [⟨Except.error "device open failed", []⟩]).1 := by
  refine ⟨rfl, ?_⟩
  intro ms hmem
  simp [ups_query_task] at hmem

/-- Claim C1 as amended: a device-open failure propagates out of
`ups_query_task` and terminates the poller immediately after the open
attempt; the `poll_failure_timeout_ms` backoff and re-open happen only
after a status-query failure inside the inner loop. -/
theorem poller_open_failure_amended {σ : Type} (cfg : RuntimeConfig)
    (e : String) (sts : List σ) (rest : List (PollIteration σ)) :
    ups_query_task cfg (⟨Except.error e, sts⟩ :: rest) =
      ([PollAction.openDevice cfg.hid_usage_page cfg.hid_usage_id
          cfg.vendor_id cfg.product_id],
        PollOutcome.terminated e) ∧
    ups_query_task cfg (⟨Except.ok (), sts⟩ :: rest) =
      (PollAction.openDevice cfg.hid_usage_page cfg.hid_usage_id
          cfg.vendor_id cfg.product_id ::
        (pollInnerTrace cfg.poll_interval_ms sts ++
          PollAction.warnQueryFailed ::
            PollAction.sleep cfg.poll_failure_timeout_ms ::
              (ups_query_task cfg rest).1),
        (ups_query_task cfg rest).2) :=
  ⟨rfl, rfl⟩

/-- Claim C9: the latest-snapshot channel starts at `None`, the poller
(the sole writer) only ever publishes `Some`, and therefore once the
channel value has become `Some` it never reverts to `None` at any
later position of its history. -/
theorem snapshot_channel_never_reverts {σ : Type} (cfg : RuntimeConfig)
    (script : List (PollIteration σ)) :
    (channelHistory cfg script).head? = some none ∧
    (∀ v ∈ pollerPublished cfg script, v.isSome = true) ∧
    (∀ (i j : Nat) (v w : Option σ), i ≤ j →
      (channelHistory cfg script)[i]? = some v →
      (channelHistory cfg script)[j]? = some w →
      v.isSome = true → w.isSome = true) := by
  refine ⟨rfl, poller_publishes_some cfg script, ?_⟩
  intro i j v w hij hi hj hv
  cases j with
  | zero =>
    have hi0 : i = 0 := by omega
    subst hi0
    rw [channelHistory, List.getElem?_cons_zero] at hi
    simp only [Option.some.injEq] at hi
    subst hi
    simp at hv
  | succ m =>
    rw [channelHistory, List.getElem?_cons_succ] at hj
    exact poller_publishes_some cfg script w (List.getElem?_mem hj)

/-- Witness for C9: in a run with one successful poll, the channel
value at position 1 is `Some` and stays `Some`. -/
theorem snapshot_channel_never_reverts_witness :
    (some () : Option Unit).isSome = true :=
  (snapshot_channel_never_reverts sampleConfig
      [⟨Except.ok (), [()]⟩]).2.2 1 1 (some ()) (some ())
    (Nat.le_refl 1) (by decide) (by decide) (by decide)

/-- Counterexample to claim C2: when `initiate_shutdown` fails during
the grace period, the supervisor terminates with that error (the
service then stops); the pending resume event of the script is never
consumed, so the supervisor does not proceed to the awaiting-resume
state. -/
theorem shutdown_failure_counterexample :
    main_loop sampleConfig
        [SupEvent.powerLoss,
          SupEvent.graceTimerElapsed (Except.ok ())
            (Except.error "access denied"),
          SupEvent.resumeSignaled] =
      ([SupAction.notifyShutdownMessage, SupAction.resetWakeup,
        SupAction.initiateShutdown true],
        SupOutcome.terminated "access denied") := rfl

/-- Claim C2 as amended: if initiating the shutdown or hibernation
fails during the grace period (timer arm or low-battery arm), the
error propagates out of `main_loop` and terminates the supervisor; it
neither re-enters the grace loop nor proceeds to the awaiting-resume
state. -/
theorem shutdown_failure_propagates (cfg : RuntimeConfig) (e : String)
    (rest : List SupEvent) :
    main_loop_go cfg SupState.grace
        (SupEvent.graceTimerElapsed (Except.ok ()) (Except.error e) :: rest) =
      ([SupAction.resetWakeup, SupAction.initiateShutdown cfg.hibernate],
        SupOutcome.terminated e) ∧
    main_loop_go cfg SupState.grace
        (SupEvent.graceLowBattery (Except.ok ()) (Except.error e) :: rest) =
      ([SupAction.resetWakeup, SupAction.initiateShutdown cfg.hibernate],
        SupOutcome.terminated e) ∧
    main_loop cfg
        (SupEvent.powerLoss ::
          SupEvent.graceTimerElapsed (Except.ok ()) (Except.error e) :: rest) =
      ([SupAction.notifyShutdownMessage, SupAction.resetWakeup,
        SupAction.initiateShutdown cfg.hibernate],
        SupOutcome.terminated e) :=
  ⟨rfl, rfl, rfl⟩

/-- Claim C8: on every path of the supervisor, a shutdown initiation is
never the first action and is always immediately preceded by a reset
of the resume-event. -/
theorem reset_before_shutdown (cfg : RuntimeConfig)
    (script : List SupEvent) :
    (∀ b, (main_loop cfg script).1.head? ≠
      some (SupAction.initiateShutdown b)) ∧
    (∀ j b, (main_loop cfg script).1[j + 1]? =
        some (SupAction.initiateShutdown b) →
      (main_loop cfg script).1[j]? = some SupAction.resetWakeup) :=
  main_loop_go_resetPrecedes cfg script SupState.normal

/-- Witness for C8: in a run where the grace timer elapses and the
shutdown succeeds, the action just before the shutdown initiation is
the resume-event reset. -/
theorem reset_before_shutdown_witness :
    (main_loop sampleConfig
        [SupEvent.powerLoss,
          SupEvent.graceTimerElapsed (Except.ok ()) (Except.ok ())]).1[1]? =
      some SupAction.resetWakeup :=
  (reset_before_shutdown sampleConfig
      [SupEvent.powerLoss,
        SupEvent.graceTimerElapsed (Except.ok ()) (Except.ok ())]).2 1 true
    (by decide)

/-- Claim C7: a payload longer than `output_report_size − 1` makes
`send_output_report` fail before any device write (no report is
written); otherwise exactly one report is written, of exactly
`output_report_size` bytes: the report ID, the payload, then zero
padding. -/
theorem hid_send_report_spec (output_report_size report_id : Nat)
    (data : List Nat) (hsize : 1 ≤ output_report_size) :
    (output_report_size - 1 < data.length →
      send_output_report output_report_size report_id data =
        some (Except.error "Supplied data does not fit in report", [])) ∧
    (data.length ≤ output_report_size - 1 →
      send_output_report output_report_size report_id data =
        some (Except.ok (),
          [report_id ::
            (data ++
              List.replicate (output_report_size - 1 - data.length) 0)]) ∧
      (report_id ::
        (data ++
          List.replicate (output_report_size - 1 - data.length) 0)).length =
        output_report_size) := by
  have h0 : ¬output_report_size < 1 := by omega
  constructor
  · intro hlen
    have h1 : data.length > output_report_size - 1 := hlen
    simp [send_output_report, create_output_report, h0, h1]
  · intro hlen
    have h1 : ¬data.length > output_report_size - 1 := by omega
    refine ⟨?_, ?_⟩
    · simp [send_output_report, create_output_report, h0, h1]
    · simp only [List.length_cons, List.length_append, List.length_replicate]
      omega

/-- Witness for C7: an 8-byte report built from a 3-byte payload. -/
theorem hid_send_report_spec_witness :
    send_output_report 8 0 [81, 83, 13] =
      some (Except.ok (),
        [0 :: ([81, 83, 13] ++
          List.replicate (8 - 1 - [81, 83, 13].length) 0)]) ∧
    (0 :: ([81, 83, 13] ++
      List.replicate (8 - 1 - [81, 83, 13].length) 0)).length = 8 :=
  (hid_send_report_spec 8 0 [81, 83, 13] (by decide)).2 (by decide)

end UnlimitedPower
